import Mathlib

/-!
Verification of the perftester report formatter and benchmark runner.

The Go sources live in `internal/report` (TextReporter, formatResults,
MakeTable), `internal/check` (Checker: Upload / Download / Delete,
pathName, fileReader) and `internal/config` (ID, FileTest, Result,
Operation).  Machine integers are modelled as `Int`/`Nat`; Go
`time.Duration` is an `Int` counting nanoseconds; the float64 throughput
computation is modelled over `ℚ` (exact arithmetic; the Go code performs
the same formula in float64).  Go maps are modelled as association lists
(insertion order = one of the arbitrary iteration orders of a Go map;
order independence is proved where the spec demands it).
-/

namespace Perftester

/-- `config.ID`: an arbitrary string. -/
abbrev ID := String

/-- `config.Operation`: Upload = 0, Download = 1, Delete = 2. -/
inductive Operation where
  | Upload
  | Download
  | Delete
deriving DecidableEq, Repr

/-- The numeric value of the Go `Operation` constant (iota order). -/
def opNum : Operation → Nat
  | .Upload => 0
  | .Download => 1
  | .Delete => 2

/-- `Operation.String()` from `internal/config`. -/
def Operation.str : Operation → String
  | .Upload => "Upload"
  | .Download => "Download"
  | .Delete => "Delete"

/-- `config.Result`.  `StartTime` and `Duration` are nanosecond counts. -/
structure Result where
  StartTime : Int := 0
  Duration : Int := 0
  Success : Bool := false
  Error : String := ""
deriving DecidableEq, Repr

/-- One step of Go `fmtFrac` (time.Duration.String helper): peel `prec`
decimal digits off `v`, keeping only the suffix after trailing zeros,
and prepend a dot if any digit was kept. -/
def fmtFracAux : Nat → Nat → Bool → List Char → (List Char × Nat)
  | v, 0, pr, acc => ((if pr then '.' :: acc else acc), v)
  | v, i + 1, pr, acc =>
    let digit := v % 10
    let pr := pr || decide (digit ≠ 0)
    let acc := if pr then Char.ofNat (48 + digit) :: acc else acc
    fmtFracAux (v / 10) i pr acc

/-- Go `fmtFrac`: the fractional part (with leading dot, trailing zeros
omitted, empty when zero) and the remaining integer value. -/
def fmtFrac (v : Nat) (prec : Nat) : String × Nat :=
  let p := fmtFracAux v prec false []
  (String.mk p.1, p.2)

/-- Go `fmtInt`: decimal rendering of a natural number. -/
def fmtInt (v : Nat) : String := toString v

/-- Go `time.Duration.String()` for a nonnegative number of nanoseconds. -/
def durationStringNat (u : Nat) : String :=
  if u < 1000000000 then
    if u = 0 then "0s"
    else if u < 1000 then fmtInt u ++ "ns"
    else if u < 1000000 then
      let p := fmtFrac u 3
      fmtInt p.2 ++ p.1 ++ "µs"
    else
      let p := fmtFrac u 6
      fmtInt p.2 ++ p.1 ++ "ms"
  else
    let p := fmtFrac u 9
    let secPart := fmtInt (p.2 % 60) ++ p.1 ++ "s"
    let v2 := p.2 / 60
    if v2 = 0 then secPart
    else
      let minPart := fmtInt (v2 % 60) ++ "m" ++ secPart
      let v3 := v2 / 60
      if v3 = 0 then minPart else fmtInt v3 ++ "h" ++ minPart

/-- Go `time.Duration.String()`. -/
def durationString (d : Int) : String :=
  if d < 0 then "-" ++ durationStringNat d.natAbs else durationStringNat d.toNat

/-- Go `time.Duration.Seconds()`, modelled exactly over `ℚ`. -/
def durationSeconds (d : Int) : ℚ := (d : ℚ) / 1000000000

/-- Model of `strconv.FormatFloat(x, 'f', 2, 64)`: decimal rendering with
exactly two digits after the point (rounding to the nearest hundredth). -/
def formatFloat2 (q : ℚ) : String :=
  let n : Int := round (q * 100)
  let sign := if n < 0 then "-" else ""
  let m := n.natAbs
  sign ++ toString (m / 100) ++ "." ++ (if m % 100 < 10 then "0" else "") ++ toString (m % 100)

/-- `report.formatResultForRow`: renders one table cell from an optional
`Result` (Go `*config.Result`, `nil` = absent). -/
def formatResultForRow (operation : Operation) (fileTestSize : Int) (result : Option Result) :
    String :=
  match result with
  | none => "-"
  | some r =>
    if r.Error ≠ "" then "ERR"
    else if operation = Operation.Delete then durationString r.Duration
    else
      let megabits : ℚ := (fileTestSize : ℚ) * 8 / 1000 / 1000
      let seconds : ℚ := durationSeconds r.Duration
      formatFloat2 (megabits / seconds) ++ " Mbps"

/-- Go `strings.Repeat s n` (for a nonnegative count). -/
def sRepeat (s : String) : Nat → String
  | 0 => ""
  | n + 1 => s ++ sRepeat s n

/-- The `maxColumnLenghts` update of `report.MakeTable`'s first loop for one
row: pointwise maximum of the recorded column widths and this row's item
lengths (the Go `map[int]int` with absent keys read as `0` is modelled as a
list indexed by column, extended on demand). -/
def updateMaxCols : List Nat → List String → List Nat
  | maxCols, [] => maxCols
  | [], item :: rest => item.length :: updateMaxCols [] rest
  | m :: ms, item :: rest => max m item.length :: updateMaxCols ms rest

/-- The first loop of `report.MakeTable`: determine `numColumns` (the length
of the first row while `numColumns` is still `0`), reject rows of a
different length, and record per-column maximum widths. -/
def scanRows : List (List String) → Nat → List Nat → Except String (Nat × List Nat)
  | [], numColumns, maxCols => .ok (numColumns, maxCols)
  | row :: rest, numColumns, maxCols =>
    let numColumns := if numColumns = 0 then row.length else numColumns
    if row.length ≠ numColumns then .error "Mismatched column numbers"
    else scanRows rest numColumns (updateMaxCols maxCols row)

/-- The per-row rendering of `report.MakeTable`'s second loop: every item
except the last is followed by `maxColumnLenghts[i] - len(item) + 5`
spaces; the last item is followed by a line break. -/
def renderRowAux (maxCols : List Nat) : Nat → List String → String
  | _, [] => ""
  | _, [item] => item ++ "\n"
  | i, item :: rest =>
    item ++ String.mk (List.replicate (maxCols.getD i 0 - item.length + 5) ' ') ++
      renderRowAux maxCols (i + 1) rest

/-- `report.MakeTable`.  The header separator follows the first row and has
`(numColumns - 1) * 5 + sum of the column maxima` repetitions (Go panics on
a negative repeat count, which only happens when every row is empty; the
`Nat` subtraction here renders an empty separator in that irrelevant
corner). -/
def MakeTable (rows : List (List String)) (headerSeperator : String) : Except String String := do
  let p ← scanRows rows 0 []
  match rows with
  | [] => .ok ""
  | header :: rest =>
    let headerStr := renderRowAux p.2 0 header
    let sepStr :=
      if headerSeperator ≠ "" then
        sRepeat headerSeperator ((p.1 - 1) * 5 + p.2.foldl (· + ·) 0) ++ "\n"
      else ""
    .ok (headerStr ++ sepStr ++ String.join (rest.map (renderRowAux p.2 0)))

/-- Association-list update modelling a Go map write `m[k] = f(m[k])`:
an existing key keeps its position, a new key is appended. -/
def updateAssoc {κ β : Type} [DecidableEq κ] (l : List (κ × β)) (k : κ) (f : Option β → β) :
    List (κ × β) :=
  match l with
  | [] => [(k, f none)]
  | (k', v) :: rest => if k' = k then (k, f (some v)) :: rest else (k', v) :: updateAssoc rest k f

/-- Association-list read modelling a Go map read (`none` = absent key). -/
def lookupAssoc {κ β : Type} [DecidableEq κ] (l : List (κ × β)) (k : κ) : Option β :=
  (l.find? fun p => p.1 = k).map (·.2)

/-- `report.endpointResults`: endpointID → Result. -/
abbrev endpointResults := List (ID × Result)

/-- `report.operationResults`: operation → endpointResults. -/
abbrev operationResults := List (Operation × endpointResults)

/-- `report.fileTestResults`: fileTestID → operationResults. -/
abbrev fileTestResults := List (ID × operationResults)

/-- `TextReporter.Report`: inserts (overwrites) the entry at
(fileTestID, operation, endpointID), creating inner maps on demand. -/
def reportInsert (results : fileTestResults) (operation : Operation) (fileTestID endpointID : ID)
    (result : Result) : fileTestResults :=
  updateAssoc results fileTestID fun opRes =>
    updateAssoc (opRes.getD []) operation fun epRes =>
      updateAssoc (epRes.getD []) endpointID fun _ => result

/-- The read `results[fileTestID][operation][endpointID]` (Go yields `nil`
whenever any level is absent). -/
def lookupResult (results : fileTestResults) (fileTestID : ID) (operation : Operation)
    (endpointID : ID) : Option Result :=
  match lookupAssoc results fileTestID with
  | none => none
  | some opRes =>
    match lookupAssoc opRes operation with
    | none => none
    | some epRes => lookupAssoc epRes endpointID

/-- One submission to the aggregator, in the argument order of
`TextReporter.Report`. -/
structure Submission where
  operation : Operation
  fileTestID : ID
  endpointID : ID
  result : Result
deriving DecidableEq, Repr

/-- The store obtained by feeding a sequence of submissions to
`TextReporter.Report` in order (last write wins). -/
def buildStore (subs : List Submission) : fileTestResults :=
  subs.foldl (fun acc s => reportInsert acc s.operation s.fileTestID s.endpointID s.result) []

/-- The seen-set guarded append of `uniqueSortedIDs`:
`if _, ok := seen[x]; !ok { out = append(out, x) }`. -/
def dedupAdd {α : Type} [DecidableEq α] (acc : List α) (x : α) : List α :=
  if x ∈ acc then acc else acc ++ [x]

/-- The fileTestID collection loop of `report.uniqueSortedIDs`. -/
def collectFileTestIDs (results : fileTestResults) : List ID :=
  results.foldl (fun acc e => dedupAdd acc e.1) []

/-- The operation collection loop of `report.uniqueSortedIDs` (it never
interacts with the other two accumulators, so it is factored out). -/
def collectOperations (results : fileTestResults) : List Operation :=
  results.foldl (fun acc e => e.2.foldl (fun a oe => dedupAdd a oe.1) acc) []

/-- The endpointID collection loop of `report.uniqueSortedIDs`. -/
def collectEndpointIDs (results : fileTestResults) : List ID :=
  results.foldl
    (fun acc e => e.2.foldl (fun a oe => oe.2.foldl (fun a2 ee => dedupAdd a2 ee.1) a) acc) []

/-- `report.uniqueSortedIDs`: the deduplicated identifiers, ID lists sorted
ascending and operations sorted by their enumeration value (Go uses an
unstable `sort.Slice` with a strict comparator; on the duplicate-free
collected lists this is the unique `≤`-sorted permutation, computed here by
insertion sort). -/
def uniqueSortedIDs (results : fileTestResults) : List ID × List ID × List Operation :=
  (List.insertionSort (· ≤ ·) (collectFileTestIDs results),
   List.insertionSort (· ≤ ·) (collectEndpointIDs results),
   List.insertionSort (fun a b => opNum a ≤ opNum b) (collectOperations results))

/-- The inner endpoint loop of `report.formatResults` building one row's
cells: the configured size is checked (and the whole report aborted) for
every cell of every emitted section, present or not. -/
def buildRowCells (fileTestSizes : ID → Int) (results : fileTestResults) (fileTestID : ID)
    (operation : Operation) : List ID → Except String (List String)
  | [] => .ok []
  | endpointID :: eps => do
    let result := lookupResult results fileTestID operation endpointID
    let fileTestSize := fileTestSizes fileTestID
    if fileTestSize = 0 then .error ("Unknown fileTestSize for " ++ fileTestID)
    else do
      let rest ← buildRowCells fileTestSizes results fileTestID operation eps
      .ok (formatResultForRow operation fileTestSize result :: rest)

/-- The operation loop of `report.formatResults` building one section's
rows, each prefixed by the operation's display string. -/
def buildRows (fileTestSizes : ID → Int) (results : fileTestResults) (fileTestID : ID)
    (endpointIDs : List ID) : List Operation → Except String (List (List String))
  | [] => .ok []
  | operation :: ops => do
    let cells ← buildRowCells fileTestSizes results fileTestID operation endpointIDs
    let rest ← buildRows fileTestSizes results fileTestID endpointIDs ops
    .ok ((Operation.str operation :: cells) :: rest)

/-- One section of `report.formatResults`: the starred banner naming the
file test, a blank line, and the table (followed by the break that
`writeWithBreak` appends after the table string). -/
def formatSection (fileTestSizes : ID → Int) (results : fileTestResults) (endpointIDs : List ID)
    (operations : List Operation) (fileTestID : ID) : Except String String := do
  let stars := String.mk (List.replicate ("File: ".length + fileTestID.length) '*')
  let headerRow := "Operation" :: endpointIDs
  let rows ← buildRows fileTestSizes results fileTestID endpointIDs operations
  let tableStr ← MakeTable (headerRow :: rows) "-"
  .ok (stars ++ "\n" ++ "File: " ++ fileTestID ++ "\n" ++ stars ++ "\n" ++ "\n" ++
    tableStr ++ "\n")

/-- The outer file-test loop of `report.formatResults`. -/
def formatLoop (fileTestSizes : ID → Int) (results : fileTestResults) (endpointIDs : List ID)
    (operations : List Operation) : List ID → String → Except String String
  | [], acc => .ok acc
  | fileTestID :: fts, acc => do
    let sec ← formatSection fileTestSizes results endpointIDs operations fileTestID
    formatLoop fileTestSizes results endpointIDs operations fts (acc ++ sec)

/-- `report.formatResults` (an `Except.error` models Go's `("", err)`
return: no report string is produced). -/
def formatResults (fileTestSizes : ID → Int) (results : fileTestResults) :
    Except String String :=
  let ids := uniqueSortedIDs results
  formatLoop fileTestSizes results ids.2.1 ids.2.2 ids.1 ""

/-! Spec-side table rendering, written from the spec's words (column width =
maximum literal width of header and cells; left alignment with exactly five
trailing spaces except for the last column; separator spanning the sum of
the per-column maxima plus five per gap).  `MakeTable` is proved to refine
it. -/

/-- Spec-side width of column `j`: the maximum literal width of its header
and cells (absent cells read as empty). -/
def specColWidth (rows : List (List String)) (j : Nat) : Nat :=
  (rows.map fun row => (row.getD j "").length).foldr max 0

/-- Spec-side width list for an `n`-column table. -/
def specWidths (rows : List (List String)) (n : Nat) : List Nat :=
  (List.range n).map (specColWidth rows)

/-- Spec-side cell: left-aligned, padded to the column width plus exactly
five trailing spaces. -/
def specPadCell (w : Nat) (item : String) : String :=
  item ++ String.mk (List.replicate (w - item.length + 5) ' ')

/-- Spec-side row: padded cells, the last column ending the line. -/
def specRenderRow : List Nat → List String → String
  | _, [] => ""
  | _, [item] => item ++ "\n"
  | [], item :: rest => item ++ specRenderRow [] rest
  | w :: ws, item :: rest => specPadCell w item ++ specRenderRow ws rest

/-- Spec-side separator length: sum of the per-column maxima plus five per
column gap. -/
def specSepLen (rows : List (List String)) (n : Nat) : Nat :=
  (specWidths rows n).sum + 5 * (n - 1)

/-- Spec-side table: header row, the separator rule directly beneath it
(omitted when the separator is empty), then the remaining rows. -/
def specTable (rows : List (List String)) (n : Nat) (sep : String) : String :=
  match rows with
  | [] => ""
  | header :: rest =>
    specRenderRow (specWidths rows n) header ++
      (if sep = "" then "" else sRepeat sep (specSepLen rows n) ++ "\n") ++
      String.join (rest.map (specRenderRow (specWidths rows n)))

/-! The benchmark runner (`internal/check`). -/

/-- `config.FileTest`.  `Timeout` is a nanosecond count. -/
structure FileTest where
  NumParallel : Int := 0
  Timeout : Int := 0
  Size : Int := 0
  Seed : Int := 0
deriving DecidableEq, Repr

/-- The resolution step at the top of `Checker.RunCheck`: default the
timeout to the global one, the seed to a time-derived value (`nowSeed`),
and the parallelism to one. -/
def resolveFileTest (fileTest : FileTest) (globalTimeout : Int) (nowSeed : Int) : FileTest :=
  let ft := if fileTest.Timeout ≤ 0 then { fileTest with Timeout := globalTimeout } else fileTest
  let ft := if ft.Seed ≤ 0 then { ft with Seed := nowSeed } else ft
  if ft.NumParallel ≤ 0 then { ft with NumParallel := 1 } else ft

/-- The ASCII digit for `d < 10`. -/
def digitChar (d : Nat) : Char := Char.ofNat (48 + d)

/-- Digit loop of `strconv.Itoa` for a nonnegative value: decimal digits,
most significant first (fuel-based so that it reduces definitionally;
`n + 1` units of fuel always suffice). -/
def itoaCore : Nat → Nat → List Char → List Char
  | 0, _, acc => acc
  | fuel + 1, n, acc =>
    if n < 10 then digitChar n :: acc
    else itoaCore fuel (n / 10) (digitChar (n % 10) :: acc)

/-- `strconv.Itoa` on the nonnegative worker indices the checker uses. -/
def itoa (n : Nat) : String := String.mk (itoaCore (n + 1) n [])

/-- Decimal evaluation of a digit string (proof tool for injectivity of
`itoa`). -/
def parseNat (cs : List Char) : Nat :=
  cs.foldl (fun a c => 10 * a + (c.toNat - 48)) 0

/-- `check.pathName`: the object path of worker `i` for a file test is the
identifier concatenated with the decimal index (worker indices are the
loop counters `0 ≤ i < NumParallel`). -/
def pathName (id : ID) (i : Nat) : String := id ++ itoa i

/-- `check.fileReader`, parameterised by the deterministic byte generator
`gen` (the `math/rand` stream truncated by `io.LimitReader`): the payload
of worker `i` is a function of `Seed + i` and `Size` only. -/
def fileReader (gen : Int → Int → List Nat) (fileTest : FileTest) (i : Nat) : List Nat :=
  gen (fileTest.Seed + (i : Int)) fileTest.Size

/-- The name/payload pair worker `i` of `check.upload` passes to
`endpoint.Client.Upload`. -/
structure UploadCall where
  path : String
  content : List Nat
deriving DecidableEq

/-- Worker `i` of `check.upload`. -/
def uploadWorkerCall (gen : Int → Int → List Nat) (fileTestID : ID) (fileTest : FileTest)
    (i : Nat) : UploadCall :=
  ⟨pathName fileTestID i, fileReader gen fileTest i⟩

/-- The object path worker `i` of `check.download` fetches. -/
def downloadWorkerPath (fileTestID : ID) (i : Nat) : String := pathName fileTestID i

/-- The object path worker `i` of `check.del` deletes. -/
def delWorkerPath (fileTestID : ID) (i : Nat) : String := pathName fileTestID i

/-- The expected digests `Checker.Download` precomputes locally before any
network call, parameterised by the digest function `hash` (SHA-256):
entry `i` hashes the regenerated payload stream of worker `i`. -/
def expectedHashes (gen : Int → Int → List Nat) (hash : List Nat → List Nat)
    (fileTest : FileTest) : List (List Nat) :=
  (List.range fileTest.NumParallel.toNat).map fun i => hash (fileReader gen fileTest i)

/-- The outcome environment for one `Checker.RunCheck` invocation: the
result of each operation's parallel fan-out (`none` = success, `some msg` =
the first worker error, timeout or verification failure), the measured
wall-clock durations, and the reporter's response to each submission. -/
structure CheckEnv where
  uploadErr : Option String
  downloadErr : Option String
  deleteErr : Option String
  uploadDur : Int
  downloadDur : Int
  deleteDur : Int
  reportErr : Operation → Option String

/-- How `Checker.Upload` / `Download` / `Delete` fill a `Result` from the
operation outcome: `Success` is `err == nil`, `Error` stays at its zero
value unless the operation failed. -/
def mkOpResult (outcome : Option String) (dur : Int) : Result :=
  { StartTime := 0, Duration := dur, Success := outcome.isNone,
    Error := match outcome with | none => "" | some e => e }

/-- `Checker.Upload`: build the `Result`, submit it, and return exactly the
reporter's verdict. -/
def checkerUpload (env : CheckEnv) (fileTestID endpointID : ID) :
    List Submission × Option String :=
  ([⟨.Upload, fileTestID, endpointID, mkOpResult env.uploadErr env.uploadDur⟩],
   env.reportErr .Upload)

/-- `Checker.Download` (the local digest precomputation cannot fail: the
payload readers are in-memory). -/
def checkerDownload (env : CheckEnv) (fileTestID endpointID : ID) :
    List Submission × Option String :=
  ([⟨.Download, fileTestID, endpointID, mkOpResult env.downloadErr env.downloadDur⟩],
   env.reportErr .Download)

/-- `Checker.Delete`. -/
def checkerDelete (env : CheckEnv) (fileTestID endpointID : ID) :
    List Submission × Option String :=
  ([⟨.Delete, fileTestID, endpointID, mkOpResult env.deleteErr env.deleteDur⟩],
   env.reportErr .Delete)

/-- `Checker.RunCheck`: Upload, then Download, then Delete, returning the
submissions made and the first error any of the three returned (which is
always a reporter error). -/
def runCheck (env : CheckEnv) (fileTestID endpointID : ID) :
    List Submission × Option String :=
  let u := checkerUpload env fileTestID endpointID
  match u.2 with
  | some e => (u.1, some e)
  | none =>
    let d := checkerDownload env fileTestID endpointID
    match d.2 with
    | some e => (u.1 ++ d.1, some e)
    | none =>
      let del := checkerDelete env fileTestID endpointID
      (u.1 ++ d.1 ++ del.1, del.2)

/-- `Checker.RunChecks` over the (fileTest, endpoint) pairs in iteration
order, with the per-pair outcome environment attached: any error returned
by a `RunCheck` aborts the sweep. -/
def runChecks : List (ID × ID × CheckEnv) → List Submission × Option String
  | [] => ([], none)
  | (fileTestID, endpointID, env) :: rest =>
    let r := runCheck env fileTestID endpointID
    match r.2 with
    | some e => (r.1, some e)
    | none =>
      let rs := runChecks rest
      (r.1 ++ rs.1, rs.2)

/-- The operations `runCheck` actually executes: Upload always, each later
operation only if no earlier submission was rejected. -/
def executedOps (env : CheckEnv) : List Operation :=
  .Upload ::
    (if env.reportErr .Upload = none then
      .Download :: (if env.reportErr .Download = none then [.Delete] else [])
    else [])

/-! Theorems. -/

/-- C1: for every (file-test, operation, endpoint) cell: no `Result` renders
`-`; a `Result` with non-empty error renders `ERR` regardless of duration or
success flag; an error-free Delete renders the duration's literal
unit-suffixed string; an error-free Upload or Download renders
`(size_bytes * 8 / 1e6) / duration_seconds` to two decimals with the
suffix ` Mbps`. -/
theorem c1_cell_rendering :
    (∀ op size, formatResultForRow op size none = "-") ∧
    (∀ op size r, r.Error ≠ "" → formatResultForRow op size (some r) = "ERR") ∧
    (∀ size r, r.Error = "" → formatResultForRow .Delete size (some r) =
      durationString r.Duration) ∧
    (∀ op size r, r.Error = "" → op = .Upload ∨ op = .Download →
      formatResultForRow op size (some r) =
        formatFloat2 ((size : ℚ) * 8 / 1000000 / durationSeconds r.Duration) ++ " Mbps") := by
  refine ⟨fun op size => rfl, fun op size r h => by simp [formatResultForRow, h],
    fun size r h => by simp [formatResultForRow, h], fun op size r h hop => ?_⟩
  have harith : (size : ℚ) * 8 / 1000 / 1000 = (size : ℚ) * 8 / 1000000 := by ring
  rcases hop with h1 | h1 <;> subst h1 <;> simp [formatResultForRow, h, harith]

/-- Witness for C1 at concrete cells. -/
theorem c1_cell_rendering_witness :
    formatResultForRow .Upload 7 none = "-" ∧
    formatResultForRow .Download 7 (some ⟨0, 5, true, "boom"⟩) = "ERR" ∧
    formatResultForRow .Delete 7 (some ⟨0, 5000000000, true, ""⟩) = durationString 5000000000 ∧
    formatResultForRow .Upload 10000000 (some ⟨0, 5000000000, true, ""⟩) =
      formatFloat2 ((10000000 : ℚ) * 8 / 1000000 / durationSeconds 5000000000) ++ " Mbps" :=
  ⟨c1_cell_rendering.1 _ _,
   c1_cell_rendering.2.1 _ _ _ (by decide),
   c1_cell_rendering.2.2.1 _ _ rfl,
   c1_cell_rendering.2.2.2 _ _ _ rfl (Or.inl rfl)⟩

/-! Decimal rendering: `itoa` is injective (database for C10). -/

lemma itoaCore_eq_append : ∀ fuel n acc, itoaCore fuel n acc = itoaCore fuel n [] ++ acc := by
  intro fuel
  induction fuel with
  | zero => intro n acc; rfl
  | succ fuel ih =>
    intro n acc
    by_cases h : n < 10
    · simp [itoaCore, h]
    · simp only [itoaCore, if_neg h]
      rw [ih (n / 10) (digitChar (n % 10) :: acc), ih (n / 10) [digitChar (n % 10)]]
      simp

lemma parseNat_append (xs : List Char) (c : Char) :
    parseNat (xs ++ [c]) = 10 * parseNat xs + (c.toNat - 48) := by
  simp [parseNat, List.foldl_append]

lemma digitChar_toNat : ∀ d, d < 10 → (digitChar d).toNat = 48 + d := by decide

lemma parseNat_itoaCore : ∀ fuel n, n < 10 ^ fuel → parseNat (itoaCore fuel n []) = n := by
  intro fuel
  induction fuel with
  | zero =>
    intro n hn
    interval_cases n
    rfl
  | succ fuel ih =>
    intro n hn
    by_cases h : n < 10
    · simp [itoaCore, h, parseNat, digitChar_toNat n h]
    · have hdiv : n / 10 < 10 ^ fuel := by
        rw [Nat.div_lt_iff_lt_mul (by norm_num)]
        calc n < 10 ^ (fuel + 1) := hn
        _ = 10 ^ fuel * 10 := by rw [pow_succ]
      simp only [itoaCore, if_neg h]
      rw [itoaCore_eq_append, parseNat_append, ih _ hdiv, digitChar_toNat _ (Nat.mod_lt n (by norm_num))]
      omega

lemma itoa_injective : Function.Injective itoa := by
  intro m n h
  have hm : parseNat (itoaCore (m + 1) m []) = m :=
    parseNat_itoaCore _ _ (lt_of_lt_of_le (Nat.lt_pow_self (by norm_num) m)
      (Nat.pow_le_pow_right (by norm_num) (Nat.le_succ m)))
  have hn : parseNat (itoaCore (n + 1) n []) = n :=
    parseNat_itoaCore _ _ (lt_of_lt_of_le (Nat.lt_pow_self (by norm_num) n)
      (Nat.pow_le_pow_right (by norm_num) (Nat.le_succ n)))
  have hdata : itoaCore (m + 1) m [] = itoaCore (n + 1) n [] := congrArg String.data h
  rw [← hm, ← hn, hdata]

lemma pathName_right_injective (id : ID) : ∀ i j, pathName id i = pathName id j → i = j := by
  intro i j h
  apply itoa_injective
  have hdata : id.data ++ (itoa i).data = id.data ++ (itoa j).data := by
    have := congrArg String.data h
    simpa [pathName] using this
  have := List.append_cancel_left hdata
  cases hi : itoa i
  cases hj : itoa j
  simp_all

/-- C10: for a fixed file-test identifier, distinct worker indices give
distinct object paths; Upload, Download and Delete workers for the same
(identifier, index) address the identical path; but across different
file-test identifiers the paths may coincide, e.g. (`a`, 11) and
(`a1`, 1). -/
theorem c10_path_names :
    (∀ id i j, i ≠ j → pathName id i ≠ pathName id j) ∧
    (∀ gen id ft i, (uploadWorkerCall gen id ft i).path = pathName id i ∧
      downloadWorkerPath id i = pathName id i ∧ delWorkerPath id i = pathName id i) ∧
    (pathName "a" 11 = pathName "a1" 1 ∧ ("a", 11) ≠ (("a1" : ID), 1)) := by
  refine ⟨fun id i j hij h => hij (pathName_right_injective id i j h),
    fun gen id ft i => ⟨rfl, rfl, rfl⟩, by decide, by decide⟩

/-- Witness for C10 at a concrete identifier and index pair. -/
theorem c10_path_names_witness : pathName "ft1" 0 ≠ pathName "ft1" 1 :=
  c10_path_names.1 "ft1" 0 1 (by decide)

/-- C6: the payload stream is a function of (seed + workerIndex, size)
only, and the digest `Checker.Download` precomputes for worker `i` is the
digest of exactly the bytes worker `i` of `Checker.Upload` generated for
the same resolved `FileTest` value. -/
theorem c6_deterministic_payloads :
    (∀ gen ft ft' (i i' : Nat), ft.Seed + (i : Int) = ft'.Seed + (i' : Int) →
      ft.Size = ft'.Size → fileReader gen ft i = fileReader gen ft' i') ∧
    (∀ gen hash ft id i, i < ft.NumParallel.toNat →
      (expectedHashes gen hash ft)[i]? = some (hash (uploadWorkerCall gen id ft i).content)) := by
  constructor
  · intro gen ft ft' i i' hseed hsize
    simp [fileReader, hseed, hsize]
  · intro gen hash ft id i hi
    simp [expectedHashes, uploadWorkerCall, List.getElem?_map, List.getElem?_range, hi]

/-- Witness for C6 at a concrete generator, digest and file test. -/
theorem c6_deterministic_payloads_witness :
    fileReader (fun s n => [(s + n).natAbs]) ⟨2, 0, 9, 5⟩ 3 =
      fileReader (fun s n => [(s + n).natAbs]) ⟨2, 0, 9, 6⟩ 2 ∧
    (expectedHashes (fun s n => [(s + n).natAbs]) (fun bs => 0 :: bs) ⟨2, 0, 9, 5⟩)[1]? =
      some ((fun bs => (0 : Nat) :: bs)
        ((uploadWorkerCall (fun s n => [(s + n).natAbs]) "ft1" ⟨2, 0, 9, 5⟩ 1).content)) :=
  ⟨c6_deterministic_payloads.1 _ _ _ _ _ (by decide) rfl,
   c6_deterministic_payloads.2 _ _ _ "ft1" 1 (by decide)⟩

lemma mkOpResult_success (o : Option String) (d : Int) :
    (mkOpResult o d).Success = true ↔ o = none := by
  cases o <;> simp [mkOpResult]

lemma mkOpResult_error (o : Option String) (d : Int) :
    (mkOpResult o d).Error = "" ↔ o = none ∨ o = some "" := by
  cases o <;> simp [mkOpResult]

lemma mem_runCheck_result (env : CheckEnv) (ftID epID : ID) (sub : Submission) :
    sub ∈ (runCheck env ftID epID).1 →
      sub.result = mkOpResult env.uploadErr env.uploadDur ∨
      sub.result = mkOpResult env.downloadErr env.downloadDur ∨
      sub.result = mkOpResult env.deleteErr env.deleteDur := by
  intro hmem
  unfold runCheck checkerUpload checkerDownload checkerDelete at hmem
  rcases hu : env.reportErr .Upload with _ | e <;> rw [hu] at hmem
  · rcases hd : env.reportErr .Download with _ | e <;> rw [hd] at hmem
    · simp at hmem
      rcases hmem with h | h | h <;> subst h <;> simp
    · simp at hmem
      rcases hmem with h | h <;> subst h <;> simp
  · simp at hmem
    subst hmem
    simp

/-- C7 counterexample: the invariant fails as stated when a failed
operation carries an empty error message (the Go `error` interface permits
`Error() == ""`): the submitted `Result` then has `Success = false` and
`Error = ""`. -/
theorem c7_counterexample :
    ∃ sub ∈ (checkerUpload ⟨some "", none, none, 3, 0, 0, fun _ => none⟩ "ft1" "end1").1,
      ¬(sub.result.Success = true ↔ sub.result.Error = "") := by
  refine ⟨⟨.Upload, "ft1", "end1", mkOpResult (some "") 3⟩, by simp [checkerUpload], ?_⟩
  simp [mkOpResult]

/-- C7 (amended): for every Result the Runner submits, `Success` implies an
empty error message; and when no operation outcome is an error with an
empty message (which Go errors in this codebase never are), `Success`
holds if and only if the error message is empty. -/
theorem c7_success_iff_error_empty (env : CheckEnv) (ftID epID : ID) :
    (∀ sub ∈ (runCheck env ftID epID).1, sub.result.Success = true → sub.result.Error = "") ∧
    (env.uploadErr ≠ some "" → env.downloadErr ≠ some "" → env.deleteErr ≠ some "" →
      ∀ sub ∈ (runCheck env ftID epID).1,
        (sub.result.Success = true ↔ sub.result.Error = "")) := by
  constructor
  · intro sub hmem hsucc
    rcases mem_runCheck_result env ftID epID sub hmem with h | h | h <;> rw [h] at hsucc ⊢ <;>
      rw [mkOpResult_success] at hsucc <;> rw [mkOpResult_error] <;> exact Or.inl hsucc
  · intro hu hd hdel sub hmem
    rcases mem_runCheck_result env ftID epID sub hmem with h | h | h <;>
      rw [h, mkOpResult_success, mkOpResult_error] <;>
      [skip; skip; skip] <;> constructor <;> intro hx
    · exact Or.inl hx
    · rcases hx with hx | hx
      · exact hx
      · exact absurd hx hu
    · exact Or.inl hx
    · rcases hx with hx | hx
      · exact hx
      · exact absurd hx hd
    · exact Or.inl hx
    · rcases hx with hx | hx
      · exact hx
      · exact absurd hx hdel

/-- Witness for C7 (amended) at a concrete environment with non-empty
error messages. -/
theorem c7_success_iff_error_empty_witness :
    ∀ sub ∈ (runCheck ⟨some "boom", none, none, 3, 4, 5, fun _ => none⟩ "ft1" "end1").1,
      (sub.result.Success = true ↔ sub.result.Error = "") :=
  (c7_success_iff_error_empty ⟨some "boom", none, none, 3, 4, 5, fun _ => none⟩ "ft1" "end1").2
    (by decide) (by decide) (by decide)

/-- The submission key: the (operation, file-test, endpoint) triple. -/
def subKey (sub : Submission) : Operation × ID × ID :=
  (sub.operation, sub.fileTestID, sub.endpointID)

/-- C4: each of `Checker.Upload` / `Download` / `Delete` submits exactly
one Result keyed by its (operation, file-test, endpoint) triple, whatever
the operation outcome; `RunCheck` therefore submits exactly one Result per
executed operation, and any error returned by the reporter's submit is
returned, aborting the sweep: `RunChecks` stops at the first pair whose
`RunCheck` failed. -/
theorem c4_one_result_per_execution :
    (∀ env ftID epID, (checkerUpload env ftID epID).1.map subKey = [(.Upload, ftID, epID)] ∧
      (checkerDownload env ftID epID).1.map subKey = [(.Download, ftID, epID)] ∧
      (checkerDelete env ftID epID).1.map subKey = [(.Delete, ftID, epID)]) ∧
    (∀ env ftID epID, (runCheck env ftID epID).1.map subKey =
      (executedOps env).map fun op => (op, ftID, epID)) ∧
    (∀ env ftID epID, (runCheck env ftID epID).2 =
      ((executedOps env).filterMap env.reportErr).head?) ∧
    (∀ ftID epID env rest,
      ((runCheck env ftID epID).2 = none →
        runChecks ((ftID, epID, env) :: rest) =
          ((runCheck env ftID epID).1 ++ (runChecks rest).1, (runChecks rest).2)) ∧
      (∀ e, (runCheck env ftID epID).2 = some e →
        runChecks ((ftID, epID, env) :: rest) = ((runCheck env ftID epID).1, some e))) := by
  have hrun : ∀ env ftID epID, (runCheck env ftID epID).1.map subKey =
      ((executedOps env).map fun op => (op, ftID, epID)) ∧
      (runCheck env ftID epID).2 = ((executedOps env).filterMap env.reportErr).head? := by
    intro env ftID epID
    unfold runCheck checkerUpload checkerDownload checkerDelete executedOps
    rcases hu : env.reportErr .Upload with _ | e
    · rcases hd : env.reportErr .Download with _ | e
      · rcases hdel : env.reportErr .Delete with _ | e <;>
          simp [hu, hd, hdel, subKey, List.findSome?]
      · simp [hu, hd, subKey]
    · simp [hu, subKey]
  refine ⟨fun env ftID epID => ⟨rfl, rfl, rfl⟩,
    fun env ftID epID => (hrun env ftID epID).1,
    fun env ftID epID => (hrun env ftID epID).2,
    fun ftID epID env rest => ⟨fun hnone => ?_, fun e hsome => ?_⟩⟩
  · simp [runChecks, hnone]
  · simp [runChecks, hsome]

/-- Witness for C4: the abort equations at a concrete pair list. -/
theorem c4_one_result_per_execution_witness :
    runChecks ((("ft1" : ID), ("end1" : ID), ⟨none, none, none, 1, 2, 3, fun _ => none⟩) ::
        [("ft2", "end1", ⟨none, none, none, 1, 2, 3, fun _ => none⟩)]) =
      ((runCheck ⟨none, none, none, 1, 2, 3, fun _ => none⟩ "ft1" "end1").1 ++
        (runChecks [("ft2", "end1", ⟨none, none, none, 1, 2, 3, fun _ => none⟩)]).1,
       (runChecks [("ft2", "end1", ⟨none, none, none, 1, 2, 3, fun _ => none⟩)]).2) ∧
    ∀ e, (runCheck ⟨none, none, none, 1, 2, 3, fun _ => some "reject"⟩ "ft1" "end1").2 = some e →
      runChecks [("ft1", "end1", ⟨none, none, none, 1, 2, 3, fun _ => some "reject"⟩)] =
        ((runCheck ⟨none, none, none, 1, 2, 3, fun _ => some "reject"⟩ "ft1" "end1").1, some e) :=
  ⟨((c4_one_result_per_execution.2.2.2 "ft1" "end1" ⟨none, none, none, 1, 2, 3, fun _ => none⟩
      [("ft2", "end1", ⟨none, none, none, 1, 2, 3, fun _ => none⟩)]).1 rfl),
   fun e he =>
    (c4_one_result_per_execution.2.2.2 "ft1" "end1"
      ⟨none, none, none, 1, 2, 3, fun _ => some "reject"⟩ []).2 e he⟩

/-! `MakeTable`: the first loop computes per-column maxima and `numColumns`,
and rejects exactly the rows whose length differs. -/

lemma getD_updateMaxCols : ∀ (acc : List Nat) (row : List String) (j : Nat),
    (updateMaxCols acc row).getD j 0 = max (acc.getD j 0) ((row.getD j "").length) := by
  intro acc
  induction acc with
  | nil =>
    intro row
    induction row with
    | nil => intro j; simp [updateMaxCols]
    | cons item rest ih =>
      intro j
      cases j with
      | zero => simp [updateMaxCols]
      | succ j => simpa [updateMaxCols] using ih j
  | cons m ms ih =>
    intro row j
    cases row with
    | nil => simp [updateMaxCols]
    | cons item rest =>
      cases j with
      | zero => simp [updateMaxCols]
      | succ j => simpa [updateMaxCols] using ih rest j

lemma specColWidth_cons (row : List String) (rest : List (List String)) (j : Nat) :
    specColWidth (row :: rest) j = max ((row.getD j "").length) (specColWidth rest j) := by
  simp [specColWidth]

lemma getD_foldl_updateMaxCols : ∀ (rows : List (List String)) (acc : List Nat) (j : Nat),
    (rows.foldl updateMaxCols acc).getD j 0 = max (acc.getD j 0) (specColWidth rows j) := by
  intro rows
  induction rows with
  | nil => intro acc j; simp [specColWidth]
  | cons row rest ih =>
    intro acc j
    rw [List.foldl_cons, ih, getD_updateMaxCols, specColWidth_cons, Nat.max_assoc]

lemma length_updateMaxCols : ∀ (acc : List Nat) (row : List String),
    (updateMaxCols acc row).length = max acc.length row.length := by
  intro acc
  induction acc with
  | nil =>
    intro row
    induction row with
    | nil => simp [updateMaxCols]
    | cons item rest ih => simpa [updateMaxCols] using ih
  | cons m ms ih =>
    intro row
    cases row with
    | nil => simp [updateMaxCols]
    | cons item rest => simpa [updateMaxCols, Nat.succ_max_succ] using ih rest

lemma length_foldl_updateMaxCols : ∀ (rows : List (List String)) (n : Nat) (acc : List Nat),
    (∀ r ∈ rows, r.length = n) → acc.length = n → (rows.foldl updateMaxCols acc).length = n := by
  intro rows
  induction rows with
  | nil => intro n acc _ hacc; simpa using hacc
  | cons row rest ih =>
    intro n acc hall hacc
    rw [List.foldl_cons]
    refine ih n _ (fun r hr => hall r (List.mem_cons_of_mem _ hr)) ?_
    rw [length_updateMaxCols, hacc, hall row (List.mem_cons_self _ _), Nat.max_self]

lemma foldl_updateMaxCols_eq_specWidths (rows : List (List String)) (n : Nat)
    (hall : ∀ r ∈ rows, r.length = n) (hne : rows ≠ []) :
    rows.foldl updateMaxCols [] = specWidths rows n := by
  have hlen : (rows.foldl updateMaxCols []).length = n := by
    cases rows with
    | nil => exact absurd rfl hne
    | cons row rest =>
      rw [List.foldl_cons]
      refine length_foldl_updateMaxCols rest n _ (fun r hr => hall r (List.mem_cons_of_mem _ hr)) ?_
      rw [length_updateMaxCols]
      simpa using hall row (List.mem_cons_self _ _)
  refine List.ext_getElem (by simp [specWidths, hlen]) fun j h1 h2 => ?_
  rw [← List.getD_eq_getElem _ 0 h1, getD_foldl_updateMaxCols]
  have hj : j < n := by rwa [hlen] at h1
  simp [specWidths, List.getD_nil, hj]

lemma scanRows_of_numColumns (n : Nat) : ∀ (rows : List (List String)) (maxCols : List Nat),
    (∀ r ∈ rows, r.length = n) →
    scanRows rows n maxCols = .ok (n, rows.foldl updateMaxCols maxCols) := by
  intro rows
  induction rows with
  | nil => intro maxCols _; rfl
  | cons row rest ih =>
    intro maxCols hall
    have hrow : row.length = n := hall row (List.mem_cons_self _ _)
    have hnum : (if n = 0 then row.length else n) = n := by
      split <;> omega
    simp only [scanRows]
    rw [hnum, if_neg (by simp [hrow]), List.foldl_cons]
    exact ih _ fun r hr => hall r (List.mem_cons_of_mem _ hr)

lemma scanRows_mismatch (n : Nat) (hn : n ≠ 0) : ∀ (rows : List (List String)) (maxCols : List Nat),
    (∃ e, scanRows rows n maxCols = .error e) ↔ ∃ row ∈ rows, row.length ≠ n := by
  intro rows
  induction rows with
  | nil => intro maxCols; simp [scanRows]
  | cons row rest ih =>
    intro maxCols
    have hnum : (if n = 0 then row.length else n) = n := if_neg hn
    by_cases hrow : row.length = n
    · simp only [scanRows]
      rw [hnum, if_neg (by simp [hrow])]
      rw [ih]
      constructor
      · intro ⟨r, hr, hlen⟩
        exact ⟨r, List.mem_cons_of_mem _ hr, hlen⟩
      · intro ⟨r, hr, hlen⟩
        rcases List.mem_cons.mp hr with h | h
        · exact absurd (h ▸ hlen) (by simp [hrow])
        · exact ⟨r, h, hlen⟩
    · simp only [scanRows]
      rw [hnum, if_pos (by simpa using hrow)]
      constructor
      · intro _
        exact ⟨row, List.mem_cons_self _ _, hrow⟩
      · intro _
        exact ⟨"Mismatched column numbers", rfl⟩

lemma renderRowAux_eq_specRenderRow (M : List Nat) :
    ∀ (row : List String) (i : Nat),
      renderRowAux M i row =
        specRenderRow ((List.range row.length).map fun j => M.getD (i + j) 0) row := by
  intro row
  induction row with
  | nil => intro i; rfl
  | cons item rest ih =>
    intro i
    cases rest with
    | nil => rfl
    | cons r rs =>
      rw [show (item :: r :: rs).length = (r :: rs).length + 1 from rfl, List.range_succ_eq_map]
      simp only [List.map_cons, List.map_map]
      show item ++ String.mk (List.replicate (M.getD i 0 - item.length + 5) ' ') ++
          renderRowAux M (i + 1) (r :: rs) = _
      rw [show specRenderRow (M.getD (i + 0) 0 ::
            (List.range (r :: rs).length).map ((fun j => M.getD (i + j) 0) ∘ Nat.succ)) (item :: r :: rs) =
          specPadCell (M.getD (i + 0) 0) item ++
            specRenderRow ((List.range (r :: rs).length).map ((fun j => M.getD (i + j) 0) ∘ Nat.succ))
              (r :: rs) from rfl]
      rw [ih (i + 1)]
      have hmap : (List.range (r :: rs).length).map ((fun j => M.getD (i + j) 0) ∘ Nat.succ) =
          (List.range (r :: rs).length).map fun j => M.getD (i + 1 + j) 0 :=
        List.map_congr_left fun a _ => by
          simp only [Function.comp]
          rw [show i + (a + 1) = i + 1 + a by omega]
      rw [hmap]
      simp [specPadCell]

lemma renderRowAux_eq_spec_of_widths (rows : List (List String)) (n : Nat)
    (hall : ∀ r ∈ rows, r.length = n) (hne : rows ≠ []) (row : List String) (hrow : row.length = n) :
    renderRowAux (rows.foldl updateMaxCols []) 0 row = specRenderRow (specWidths rows n) row := by
  rw [renderRowAux_eq_specRenderRow, foldl_updateMaxCols_eq_specWidths rows n hall hne, hrow]
  refine congrArg (fun w => specRenderRow w row) ?_
  have hmap : specWidths rows n = (List.range n).map (specColWidth rows) := rfl
  rw [hmap]
  refine List.map_congr_left fun a ha => ?_
  have han : a < n := by simpa using ha
  have hgetD : ((List.range n).map (specColWidth rows)).getD (0 + a) 0 = specColWidth rows a := by
    rw [Nat.zero_add, List.getD_eq_getElem _ 0 (by simp [han])]
    simp [han]
  simpa [hmap] using hgetD

/-- The central `MakeTable` refinement: on well-formed input (every row of
the positive length `n`) it succeeds and produces exactly the table the
spec describes. -/
lemma makeTable_eq_specTable (rows : List (List String)) (n : Nat) (sep : String) (_hn : 0 < n)
    (hall : ∀ r ∈ rows, r.length = n) :
    MakeTable rows sep = .ok (specTable rows n sep) := by
  cases rows with
  | nil => rfl
  | cons header rest =>
    have hne : (header :: rest) ≠ [] := by simp
    have hheader : header.length = n := hall header (List.mem_cons_self _ _)
    have hscan : scanRows (header :: rest) 0 [] =
        .ok (n, (header :: rest).foldl updateMaxCols []) := by
      simp only [scanRows, if_true]
      rw [if_neg (by simp), List.foldl_cons, hheader]
      exact scanRows_of_numColumns n rest _ fun r hr => hall r (List.mem_cons_of_mem _ hr)
    have hsum : ((header :: rest).foldl updateMaxCols []).foldl (· + ·) 0 =
        (specWidths (header :: rest) n).sum := by
      rw [foldl_updateMaxCols_eq_specWidths _ n hall hne]
      exact List.sum_eq_foldl.symm
    unfold MakeTable
    rw [hscan]
    show Except.ok _ = _
    unfold specTable
    rw [renderRowAux_eq_spec_of_widths _ n hall hne header (hall header (List.mem_cons_self _ _))]
    have hrest : (rest.map (renderRowAux ((header :: rest).foldl updateMaxCols []) 0)) =
        rest.map (specRenderRow (specWidths (header :: rest) n)) :=
      List.map_congr_left fun r hr =>
        renderRowAux_eq_spec_of_widths _ n hall hne r (hall r (List.mem_cons_of_mem _ hr))
    rw [hrest]
    by_cases hsep : sep = ""
    · simp [hsep]
    · rw [if_pos hsep, if_neg hsep, hsum]
      have hcount : (n - 1) * 5 + (specWidths (header :: rest) n).sum =
          specSepLen (header :: rest) n := by
        unfold specSepLen
        omega
      rw [hcount]

/-- C8 counterexample: with an empty header row, `MakeTable` accepts the
ragged input `[[], ["a"]]` (the second row has one column, the header has
zero) and returns a table. -/
theorem c8_counterexample :
    (["a"].length ≠ ([] : List String).length) ∧
      MakeTable [[], ["a"]] "-" = .ok "-\na\n" := by
  exact ⟨by decide, rfl⟩

/-- C8 (amended): whenever the header (first) row is non-empty, `MakeTable`
returns an error exactly when some row has a different number of columns
from the header, and returns a table only when all rows have equal column
counts.  (With an empty header, `numColumns` is taken from the first
non-empty row instead, as the counterexample shows.) -/
theorem c8_ragged_rows_rejected (rows : List (List String)) (sep : String)
    (hheader : 0 < (rows.headD []).length) :
    (∃ e, MakeTable rows sep = .error e) ↔
      ∃ row ∈ rows, row.length ≠ (rows.headD []).length := by
  cases rows with
  | nil => simp at hheader
  | cons header rest =>
    simp only [List.headD_cons] at hheader ⊢
    have hstep : scanRows (header :: rest) 0 [] =
        scanRows rest header.length (updateMaxCols [] header) := by
      simp only [scanRows, if_true]
      rw [if_neg (by simp)]
    have herr : (∃ e, MakeTable (header :: rest) sep = .error e) ↔
        ∃ e, scanRows (header :: rest) 0 [] = .error e := by
      unfold MakeTable
      cases hscan : scanRows (header :: rest) 0 [] with
      | error e =>
        simp only [hscan]
        exact ⟨fun _ => ⟨e, rfl⟩, fun _ => ⟨e, rfl⟩⟩
      | ok p =>
        simp only [hscan]
        exact ⟨fun ⟨e, he⟩ => absurd he (fun h => Except.noConfusion h),
          fun ⟨e, he⟩ => Except.noConfusion he⟩
    rw [herr, hstep, scanRows_mismatch header.length (by omega) rest _]
    constructor
    · intro ⟨r, hr, hlen⟩
      exact ⟨r, List.mem_cons_of_mem _ hr, hlen⟩
    · intro ⟨r, hr, hlen⟩
      rcases List.mem_cons.mp hr with h | h
      · exact absurd (h ▸ hlen) (by simp)
      · exact ⟨r, h, hlen⟩

/-- Witness for C8 (amended): a concrete ragged input with non-empty header
is rejected. -/
theorem c8_ragged_rows_rejected_witness :
    ∃ e, MakeTable [["a"], ["b", "c"]] "-" = .error e :=
  (c8_ragged_rows_rejected [["a"], ["b", "c"]] "-" (by decide)).mpr
    ⟨["b", "c"], by simp, by decide⟩

/-- C9: on well-formed input, each column of `MakeTable`'s output is as
wide as its widest entry, cells are left-aligned and padded with exactly
five trailing spaces except the last column which ends the line, the rule
beneath the header spans the sum of the column maxima plus five per gap,
and an empty separator string suppresses the rule — all captured by the
spec-side `specTable` and the refinement equality. -/
theorem c9_table_layout (rows : List (List String)) (n : Nat) (sep : String) (hn : 0 < n)
    (hall : ∀ r ∈ rows, r.length = n) :
    MakeTable rows sep = .ok (specTable rows n sep) :=
  makeTable_eq_specTable rows n sep hn hall

/-- Witness for C9 at the concrete table of the repository's tests. -/
theorem c9_table_layout_witness :
    MakeTable [["this", "is", "a", "header"], ["here", "we", "find", "row2"],
        ["different", "items", "a", "b"]] "-" =
      .ok (specTable [["this", "is", "a", "header"], ["here", "we", "find", "row2"],
        ["different", "items", "a", "b"]] 4 "-") :=
  c9_table_layout _ 4 "-" (by decide) (by decide)

/-! The aggregator store: how `Report` insertions affect lookups and the
identifier sets, and what `uniqueSortedIDs` collects. -/

lemma updateAssoc_nil {κ β : Type} [DecidableEq κ] (k : κ) (f : Option β → β) :
    updateAssoc ([] : List (κ × β)) k f = [(k, f none)] := rfl

lemma updateAssoc_cons_pos {κ β : Type} [DecidableEq κ] (k : κ) (v : β) (rest : List (κ × β))
    (f : Option β → β) : updateAssoc ((k, v) :: rest) k f = (k, f (some v)) :: rest := by
  simp [updateAssoc]

lemma updateAssoc_cons_neg {κ β : Type} [DecidableEq κ] {k₀ k : κ} (h : k₀ ≠ k) (v : β)
    (rest : List (κ × β)) (f : Option β → β) :
    updateAssoc ((k₀, v) :: rest) k f = (k₀, v) :: updateAssoc rest k f := by
  simp [updateAssoc, h]

lemma exists_fst_cons {α : Type} (e : α) (l : List α) (p : α → Prop) :
    (∃ x ∈ e :: l, p x) ↔ p e ∨ ∃ x ∈ l, p x := by
  constructor
  · rintro ⟨x, hx, hpx⟩
    rcases List.mem_cons.mp hx with h | h
    · exact Or.inl (h ▸ hpx)
    · exact Or.inr ⟨x, h, hpx⟩
  · rintro (h | ⟨x, hx, hpx⟩)
    · exact ⟨e, List.mem_cons_self _ _, h⟩
    · exact ⟨x, List.mem_cons_of_mem _ hx, hpx⟩

lemma lookupAssoc_nil {κ β : Type} [DecidableEq κ] (k : κ) :
    lookupAssoc ([] : List (κ × β)) k = none := rfl

lemma lookupAssoc_cons {κ β : Type} [DecidableEq κ] (k₀ : κ) (v : β) (rest : List (κ × β))
    (k : κ) : lookupAssoc ((k₀, v) :: rest) k = if k₀ = k then some v else lookupAssoc rest k := by
  by_cases h : k₀ = k <;> simp [lookupAssoc, List.find?_cons, h]

lemma lookupAssoc_updateAssoc_self {κ β : Type} [DecidableEq κ] :
    ∀ (l : List (κ × β)) (k : κ) (f : Option β → β),
      lookupAssoc (updateAssoc l k f) k = some (f (lookupAssoc l k)) := by
  intro l k f
  induction l with
  | nil => simp [updateAssoc_nil, lookupAssoc_nil, lookupAssoc_cons]
  | cons e rest ih =>
    obtain ⟨k₀, v⟩ := e
    by_cases h : k₀ = k
    · subst h
      rw [updateAssoc_cons_pos, lookupAssoc_cons, lookupAssoc_cons, if_pos rfl, if_pos rfl]
    · rw [updateAssoc_cons_neg h, lookupAssoc_cons, lookupAssoc_cons, if_neg h, if_neg h, ih]

lemma lookupAssoc_updateAssoc_ne {κ β : Type} [DecidableEq κ] :
    ∀ (l : List (κ × β)) (k : κ) (f : Option β → β) (k' : κ), k' ≠ k →
      lookupAssoc (updateAssoc l k f) k' = lookupAssoc l k' := by
  intro l k f k' hne
  induction l with
  | nil => simp [updateAssoc_nil, lookupAssoc_nil, lookupAssoc_cons, Ne.symm hne]
  | cons e rest ih =>
    obtain ⟨k₀, v⟩ := e
    by_cases h : k₀ = k
    · subst h
      rw [updateAssoc_cons_pos, lookupAssoc_cons, lookupAssoc_cons,
        if_neg (Ne.symm hne), if_neg (Ne.symm hne)]
    · rw [updateAssoc_cons_neg h, lookupAssoc_cons, lookupAssoc_cons, ih]

lemma mem_key_updateAssoc {κ β : Type} [DecidableEq κ] :
    ∀ (l : List (κ × β)) (k : κ) (f : Option β → β) (k' : κ),
      (∃ e ∈ updateAssoc l k f, e.1 = k') ↔ k = k' ∨ ∃ e ∈ l, e.1 = k' := by
  intro l k f k'
  induction l with
  | nil =>
    rw [updateAssoc_nil, exists_fst_cons]
  | cons e rest ih =>
    obtain ⟨k₀, v⟩ := e
    by_cases h : k₀ = k
    · subst h
      rw [updateAssoc_cons_pos, exists_fst_cons, exists_fst_cons]
      constructor
      · rintro (h1 | h1)
        · exact Or.inl h1
        · exact Or.inr (Or.inr h1)
      · rintro (h1 | h1 | h1)
        · exact Or.inl h1
        · exact Or.inl h1
        · exact Or.inr h1
    · rw [updateAssoc_cons_neg h, exists_fst_cons, exists_fst_cons, ih]
      exact or_left_comm

lemma mem_epKey_updateAssoc (ops : operationResults) (op : Operation) (ep : ID) (r : Result)
    (ep' : ID) :
    (∃ oe ∈ updateAssoc ops op
        (fun epRes => updateAssoc (epRes.getD []) ep fun _ => r), ∃ ee ∈ oe.2, ee.1 = ep') ↔
      ep = ep' ∨ ∃ oe ∈ ops, ∃ ee ∈ oe.2, ee.1 = ep' := by
  induction ops with
  | nil =>
    rw [updateAssoc_nil, exists_fst_cons]
    dsimp only [Option.getD]
    rw [show (∃ ee ∈ updateAssoc ([] : endpointResults) ep fun _ => r, ee.1 = ep') ↔
        ep = ep' ∨ ∃ ee ∈ ([] : endpointResults), ee.1 = ep' from mem_key_updateAssoc _ _ _ _]
    simp
  | cons oe rest ih =>
    obtain ⟨op₀, eps₀⟩ := oe
    by_cases h : op₀ = op
    · subst h
      rw [updateAssoc_cons_pos, exists_fst_cons, exists_fst_cons]
      dsimp only [Option.getD]
      rw [show (∃ ee ∈ updateAssoc eps₀ ep fun _ => r, ee.1 = ep') ↔
          ep = ep' ∨ ∃ ee ∈ eps₀, ee.1 = ep' from mem_key_updateAssoc _ _ _ _]
      exact or_assoc
    · rw [updateAssoc_cons_neg h, exists_fst_cons, exists_fst_cons, ih]
      exact or_left_comm

lemma ftPresent_reportInsert (s : fileTestResults) (op : Operation) (ft ep : ID) (r : Result)
    (ft' : ID) :
    (∃ e ∈ reportInsert s op ft ep r, e.1 = ft') ↔ ft = ft' ∨ ∃ e ∈ s, e.1 = ft' :=
  mem_key_updateAssoc s ft _ ft'

lemma opPresent_reportInsert (s : fileTestResults) (op : Operation) (ft ep : ID) (r : Result)
    (op' : Operation) :
    (∃ e ∈ reportInsert s op ft ep r, ∃ oe ∈ e.2, oe.1 = op') ↔
      op = op' ∨ ∃ e ∈ s, ∃ oe ∈ e.2, oe.1 = op' := by
  unfold reportInsert
  induction s with
  | nil =>
    rw [updateAssoc_nil, exists_fst_cons]
    simp only [Option.getD_none]
    rw [show (∃ oe ∈ updateAssoc ([] : operationResults) op
          (fun epRes => updateAssoc (epRes.getD []) ep fun _ => r), oe.1 = op') ↔
        op = op' ∨ ∃ oe ∈ ([] : operationResults), oe.1 = op' from mem_key_updateAssoc _ _ _ _]
    simp
  | cons e rest ih =>
    obtain ⟨ft₀, ops₀⟩ := e
    by_cases h : ft₀ = ft
    · subst h
      rw [updateAssoc_cons_pos, exists_fst_cons, exists_fst_cons]
      simp only [Option.getD_some]
      rw [show (∃ oe ∈ updateAssoc ops₀ op
            (fun epRes => updateAssoc (epRes.getD []) ep fun _ => r), oe.1 = op') ↔
          op = op' ∨ ∃ oe ∈ ops₀, oe.1 = op' from mem_key_updateAssoc _ _ _ _]
      exact or_assoc
    · rw [updateAssoc_cons_neg h, exists_fst_cons, exists_fst_cons, ih]
      exact or_left_comm

lemma epPresent_reportInsert (s : fileTestResults) (op : Operation) (ft ep : ID) (r : Result)
    (ep' : ID) :
    (∃ e ∈ reportInsert s op ft ep r, ∃ oe ∈ e.2, ∃ ee ∈ oe.2, ee.1 = ep') ↔
      ep = ep' ∨ ∃ e ∈ s, ∃ oe ∈ e.2, ∃ ee ∈ oe.2, ee.1 = ep' := by
  unfold reportInsert
  induction s with
  | nil =>
    rw [updateAssoc_nil, exists_fst_cons]
    simp only [Option.getD_none]
    rw [mem_epKey_updateAssoc]
    simp
  | cons e rest ih =>
    obtain ⟨ft₀, ops₀⟩ := e
    by_cases h : ft₀ = ft
    · subst h
      rw [updateAssoc_cons_pos, exists_fst_cons, exists_fst_cons]
      simp only [Option.getD_some]
      rw [mem_epKey_updateAssoc]
      exact or_assoc
    · rw [updateAssoc_cons_neg h, exists_fst_cons, exists_fst_cons, ih]
      exact or_left_comm

lemma lookupResult_reportInsert_self (s : fileTestResults) (op : Operation) (ft ep : ID)
    (r : Result) : lookupResult (reportInsert s op ft ep r) ft op ep = some r := by
  unfold lookupResult reportInsert
  rw [lookupAssoc_updateAssoc_self]
  dsimp only
  rw [lookupAssoc_updateAssoc_self]
  dsimp only
  rw [lookupAssoc_updateAssoc_self]

lemma lookupResult_reportInsert_ne (s : fileTestResults) (op : Operation) (ft ep : ID)
    (r : Result) (ft' : ID) (op' : Operation) (ep' : ID)
    (hne : ¬(ft' = ft ∧ op' = op ∧ ep' = ep)) :
    lookupResult (reportInsert s op ft ep r) ft' op' ep' = lookupResult s ft' op' ep' := by
  unfold lookupResult reportInsert
  by_cases h1 : ft' = ft
  · subst h1
    rw [lookupAssoc_updateAssoc_self]
    dsimp only
    by_cases h2 : op' = op
    · subst h2
      have h3 : ep' ≠ ep := fun h => hne ⟨rfl, rfl, h⟩
      rw [lookupAssoc_updateAssoc_self]
      dsimp only
      rw [lookupAssoc_updateAssoc_ne _ _ _ _ h3]
      cases hs : lookupAssoc s ft' with
      | none => simp [Option.getD_none, lookupAssoc_nil]
      | some ops =>
        simp only [Option.getD_some]
        cases ho : lookupAssoc ops op' with
        | none => simp [Option.getD_none, lookupAssoc_nil]
        | some eps => simp [Option.getD_some]
    · rw [lookupAssoc_updateAssoc_ne _ _ _ _ h2]
      cases hs : lookupAssoc s ft' with
      | none => simp [Option.getD_none, lookupAssoc_nil]
      | some ops => simp [Option.getD_some]
  · rw [lookupAssoc_updateAssoc_ne _ _ _ _ h1]

/-- The fold that feeds a submission list to `TextReporter.Report`. -/
lemma buildStore_eq_foldl (subs : List Submission) :
    buildStore subs = subs.foldl
      (fun acc sub => reportInsert acc sub.operation sub.fileTestID sub.endpointID sub.result)
      [] := rfl

lemma lookupResult_foldl_of_not_mem :
    ∀ (subs : List Submission) (ft : ID) (op : Operation) (ep : ID),
      (∀ sub ∈ subs, ¬(sub.fileTestID = ft ∧ sub.operation = op ∧ sub.endpointID = ep)) →
      ∀ s : fileTestResults,
        lookupResult (subs.foldl
          (fun acc sub => reportInsert acc sub.operation sub.fileTestID sub.endpointID sub.result)
          s) ft op ep = lookupResult s ft op ep := by
  intro subs
  induction subs with
  | nil => intro ft op ep _ s; rfl
  | cons sub rest ih =>
    intro ft op ep hnone s
    rw [List.foldl_cons, ih ft op ep (fun x hx => hnone x (List.mem_cons_of_mem _ hx)),
      lookupResult_reportInsert_ne]
    exact fun hc => hnone sub (List.mem_cons_self _ _) ⟨hc.1.symm, hc.2.1.symm, hc.2.2.symm⟩

lemma lookupResult_foldl_of_mem :
    ∀ (subs : List Submission),
      (∀ a ∈ subs, ∀ b ∈ subs, subKey a = subKey b → a = b) →
      ∀ sub ∈ subs, ∀ s : fileTestResults,
        lookupResult (subs.foldl
          (fun acc sub => reportInsert acc sub.operation sub.fileTestID sub.endpointID sub.result)
          s) sub.fileTestID sub.operation sub.endpointID = some sub.result := by
  intro subs
  induction subs with
  | nil => intro _ sub hmem; exact absurd hmem (List.not_mem_nil _)
  | cons sub₀ rest ih =>
    intro hu sub hmem s
    have hurest : ∀ a ∈ rest, ∀ b ∈ rest, subKey a = subKey b → a = b := fun a ha b hb =>
      hu a (List.mem_cons_of_mem _ ha) b (List.mem_cons_of_mem _ hb)
    rcases List.mem_cons.mp hmem with rfl | hmem'
    · by_cases hrest : ∃ sub₁ ∈ rest, subKey sub₁ = subKey sub
      · obtain ⟨sub₁, hmem₁, hkey₁⟩ := hrest
        have heq : sub₁ = sub :=
          hu sub₁ (List.mem_cons_of_mem _ hmem₁) sub (List.mem_cons_self _ _) hkey₁
        subst heq
        rw [List.foldl_cons]
        exact ih hurest sub₁ hmem₁ _
      · rw [List.foldl_cons]
        have hnone : ∀ x ∈ rest,
            ¬(x.fileTestID = sub.fileTestID ∧ x.operation = sub.operation ∧
              x.endpointID = sub.endpointID) := by
          intro x hx hcontra
          exact hrest ⟨x, hx, by
            obtain ⟨h1, h2, h3⟩ := hcontra
            simp [subKey, h1, h2, h3]⟩
        rw [lookupResult_foldl_of_not_mem rest _ _ _ hnone _,
          lookupResult_reportInsert_self]
    · rw [List.foldl_cons]
      exact ih hurest sub hmem' _

lemma ftPresent_foldl :
    ∀ (subs : List Submission) (ft : ID) (s : fileTestResults),
      (∃ e ∈ subs.foldl
          (fun acc sub => reportInsert acc sub.operation sub.fileTestID sub.endpointID sub.result)
          s, e.1 = ft) ↔
        (∃ e ∈ s, e.1 = ft) ∨ ∃ sub ∈ subs, sub.fileTestID = ft := by
  intro subs
  induction subs with
  | nil => intro ft s; simp
  | cons sub rest ih =>
    intro ft s
    rw [List.foldl_cons, ih, ftPresent_reportInsert, exists_fst_cons]
    exact or_assoc.trans or_left_comm

lemma opPresent_foldl :
    ∀ (subs : List Submission) (op : Operation) (s : fileTestResults),
      (∃ e ∈ subs.foldl
          (fun acc sub => reportInsert acc sub.operation sub.fileTestID sub.endpointID sub.result)
          s, ∃ oe ∈ e.2, oe.1 = op) ↔
        (∃ e ∈ s, ∃ oe ∈ e.2, oe.1 = op) ∨ ∃ sub ∈ subs, sub.operation = op := by
  intro subs
  induction subs with
  | nil => intro op s; simp
  | cons sub rest ih =>
    intro op s
    rw [List.foldl_cons, ih, opPresent_reportInsert, exists_fst_cons]
    exact or_assoc.trans or_left_comm

lemma epPresent_foldl :
    ∀ (subs : List Submission) (ep : ID) (s : fileTestResults),
      (∃ e ∈ subs.foldl
          (fun acc sub => reportInsert acc sub.operation sub.fileTestID sub.endpointID sub.result)
          s, ∃ oe ∈ e.2, ∃ ee ∈ oe.2, ee.1 = ep) ↔
        (∃ e ∈ s, ∃ oe ∈ e.2, ∃ ee ∈ oe.2, ee.1 = ep) ∨ ∃ sub ∈ subs, sub.endpointID = ep := by
  intro subs
  induction subs with
  | nil => intro ep s; simp
  | cons sub rest ih =>
    intro ep s
    rw [List.foldl_cons, ih, epPresent_reportInsert, exists_fst_cons]
    exact or_assoc.trans or_left_comm

/-! The identifier collection of `uniqueSortedIDs`. -/

lemma mem_dedupAdd {α : Type} [DecidableEq α] (acc : List α) (x y : α) :
    x ∈ dedupAdd acc y ↔ x ∈ acc ∨ x = y := by
  unfold dedupAdd
  by_cases h : y ∈ acc
  · rw [if_pos h]
    constructor
    · exact Or.inl
    · rintro (hx | rfl) <;> [exact hx; exact h]
  · rw [if_neg h]
    simp

lemma nodup_dedupAdd {α : Type} [DecidableEq α] (acc : List α) (y : α) (h : acc.Nodup) :
    (dedupAdd acc y).Nodup := by
  unfold dedupAdd
  by_cases hy : y ∈ acc
  · rwa [if_pos hy]
  · rw [if_neg hy]
    simpa [List.nodup_append] using ⟨h, hy⟩

lemma mem_foldl_dedupAdd_fst {κ β : Type} [DecidableEq κ] :
    ∀ (l : List (κ × β)) (acc : List κ) (x : κ),
      x ∈ l.foldl (fun a e => dedupAdd a e.1) acc ↔ x ∈ acc ∨ ∃ e ∈ l, e.1 = x := by
  intro l
  induction l with
  | nil => intro acc x; simp
  | cons e rest ih =>
    intro acc x
    rw [List.foldl_cons, ih, mem_dedupAdd, exists_fst_cons]
    constructor
    · rintro ((hx | hx) | hx)
      · exact Or.inl hx
      · exact Or.inr (Or.inl hx.symm)
      · exact Or.inr (Or.inr hx)
    · rintro (hx | hx | hx)
      · exact Or.inl (Or.inl hx)
      · exact Or.inl (Or.inr hx.symm)
      · exact Or.inr hx

lemma nodup_foldl_dedupAdd_fst {κ β : Type} [DecidableEq κ] :
    ∀ (l : List (κ × β)) (acc : List κ), acc.Nodup →
      (l.foldl (fun a e => dedupAdd a e.1) acc).Nodup := by
  intro l
  induction l with
  | nil => intro acc h; exact h
  | cons e rest ih =>
    intro acc h
    rw [List.foldl_cons]
    exact ih _ (nodup_dedupAdd _ _ h)

lemma mem_collectFileTestIDs (s : fileTestResults) (ft : ID) :
    ft ∈ collectFileTestIDs s ↔ ∃ e ∈ s, e.1 = ft := by
  unfold collectFileTestIDs
  rw [mem_foldl_dedupAdd_fst]
  simp

lemma nodup_collectFileTestIDs (s : fileTestResults) : (collectFileTestIDs s).Nodup :=
  nodup_foldl_dedupAdd_fst s [] List.nodup_nil

lemma mem_foldl_collectOps :
    ∀ (s : fileTestResults) (acc : List Operation) (op : Operation),
      op ∈ s.foldl (fun acc e => e.2.foldl (fun a oe => dedupAdd a oe.1) acc) acc ↔
        op ∈ acc ∨ ∃ e ∈ s, ∃ oe ∈ e.2, oe.1 = op := by
  intro s
  induction s with
  | nil => intro acc op; simp
  | cons e rest ih =>
    intro acc op
    rw [List.foldl_cons, ih, mem_foldl_dedupAdd_fst, exists_fst_cons]
    exact or_assoc

lemma nodup_foldl_collectOps :
    ∀ (s : fileTestResults) (acc : List Operation), acc.Nodup →
      (s.foldl (fun acc e => e.2.foldl (fun a oe => dedupAdd a oe.1) acc) acc).Nodup := by
  intro s
  induction s with
  | nil => intro acc h; exact h
  | cons e rest ih =>
    intro acc h
    rw [List.foldl_cons]
    exact ih _ (nodup_foldl_dedupAdd_fst _ _ h)

lemma mem_collectOperations (s : fileTestResults) (op : Operation) :
    op ∈ collectOperations s ↔ ∃ e ∈ s, ∃ oe ∈ e.2, oe.1 = op := by
  unfold collectOperations
  rw [mem_foldl_collectOps]
  simp

lemma nodup_collectOperations (s : fileTestResults) : (collectOperations s).Nodup :=
  nodup_foldl_collectOps s [] List.nodup_nil

lemma mem_foldl_collectEps_inner :
    ∀ (ops : operationResults) (acc : List ID) (ep : ID),
      ep ∈ ops.foldl (fun a oe => oe.2.foldl (fun a2 ee => dedupAdd a2 ee.1) a) acc ↔
        ep ∈ acc ∨ ∃ oe ∈ ops, ∃ ee ∈ oe.2, ee.1 = ep := by
  intro ops
  induction ops with
  | nil => intro acc ep; simp
  | cons oe rest ih =>
    intro acc ep
    rw [List.foldl_cons, ih, mem_foldl_dedupAdd_fst, exists_fst_cons]
    exact or_assoc

lemma nodup_foldl_collectEps_inner :
    ∀ (ops : operationResults) (acc : List ID), acc.Nodup →
      (ops.foldl (fun a oe => oe.2.foldl (fun a2 ee => dedupAdd a2 ee.1) a) acc).Nodup := by
  intro ops
  induction ops with
  | nil => intro acc h; exact h
  | cons oe rest ih =>
    intro acc h
    rw [List.foldl_cons]
    exact ih _ (nodup_foldl_dedupAdd_fst _ _ h)

lemma mem_foldl_collectEps :
    ∀ (s : fileTestResults) (acc : List ID) (ep : ID),
      ep ∈ s.foldl
          (fun acc e => e.2.foldl (fun a oe => oe.2.foldl (fun a2 ee => dedupAdd a2 ee.1) a) acc)
          acc ↔
        ep ∈ acc ∨ ∃ e ∈ s, ∃ oe ∈ e.2, ∃ ee ∈ oe.2, ee.1 = ep := by
  intro s
  induction s with
  | nil => intro acc ep; simp
  | cons e rest ih =>
    intro acc ep
    rw [List.foldl_cons, ih, mem_foldl_collectEps_inner, exists_fst_cons]
    exact or_assoc

lemma nodup_foldl_collectEps :
    ∀ (s : fileTestResults) (acc : List ID), acc.Nodup →
      (s.foldl
          (fun acc e => e.2.foldl (fun a oe => oe.2.foldl (fun a2 ee => dedupAdd a2 ee.1) a) acc)
          acc).Nodup := by
  intro s
  induction s with
  | nil => intro acc h; exact h
  | cons e rest ih =>
    intro acc h
    rw [List.foldl_cons]
    exact ih _ (nodup_foldl_collectEps_inner _ _ h)

lemma mem_collectEndpointIDs (s : fileTestResults) (ep : ID) :
    ep ∈ collectEndpointIDs s ↔ ∃ e ∈ s, ∃ oe ∈ e.2, ∃ ee ∈ oe.2, ee.1 = ep := by
  unfold collectEndpointIDs
  rw [mem_foldl_collectEps]
  simp

lemma nodup_collectEndpointIDs (s : fileTestResults) : (collectEndpointIDs s).Nodup :=
  nodup_foldl_collectEps s [] List.nodup_nil

/-! Sorting facts for `uniqueSortedIDs`. -/

lemma opNum_injective : Function.Injective opNum := by
  intro a b h
  cases a <;> cases b <;> simp [opNum] at h ⊢

instance : IsTrans Operation fun a b => opNum a ≤ opNum b :=
  ⟨fun _ _ _ => Nat.le_trans⟩

instance : IsTotal Operation fun a b => opNum a ≤ opNum b :=
  ⟨fun x y => Nat.le_total (opNum x) (opNum y)⟩

instance : IsAntisymm Operation fun a b => opNum a ≤ opNum b :=
  ⟨fun _ _ h1 h2 => opNum_injective (Nat.le_antisymm h1 h2)⟩

lemma sorted_lt_of_sorted_le_nodup {α : Type} [LinearOrder α] {l : List α}
    (hs : l.Sorted (· ≤ ·)) (hn : l.Nodup) : l.Sorted (· < ·) :=
  (hs.and hn).imp fun h => lt_of_le_of_ne h.1 h.2

lemma insertionSort_eq_of_mem_iff {α : Type} (r : α → α → Prop) [DecidableRel r] [IsTotal α r]
    [IsTrans α r] [IsAntisymm α r] {l1 l2 : List α} (h1 : l1.Nodup) (h2 : l2.Nodup)
    (hm : ∀ x, x ∈ l1 ↔ x ∈ l2) :
    List.insertionSort r l1 = List.insertionSort r l2 :=
  List.eq_of_perm_of_sorted
    ((List.perm_insertionSort r l1).trans
      (((List.perm_ext_iff_of_nodup h1 h2).mpr hm).trans (List.perm_insertionSort r l2).symm))
    (List.sorted_insertionSort r l1) (List.sorted_insertionSort r l2)

/-! `formatResults` only depends on the store through `uniqueSortedIDs` and
`lookupResult`. -/

lemma buildRowCells_congr (sizes : ID → Int) {s1 s2 : fileTestResults}
    (h : ∀ ft op ep, lookupResult s1 ft op ep = lookupResult s2 ft op ep) (ft : ID)
    (op : Operation) : ∀ eps, buildRowCells sizes s1 ft op eps = buildRowCells sizes s2 ft op eps := by
  intro eps
  induction eps with
  | nil => rfl
  | cons ep eps ih =>
    simp only [buildRowCells]
    rw [h, ih]

lemma buildRows_congr (sizes : ID → Int) {s1 s2 : fileTestResults}
    (h : ∀ ft op ep, lookupResult s1 ft op ep = lookupResult s2 ft op ep) (ft : ID)
    (eps : List ID) : ∀ ops, buildRows sizes s1 ft eps ops = buildRows sizes s2 ft eps ops := by
  intro ops
  induction ops with
  | nil => rfl
  | cons op ops ih =>
    simp only [buildRows]
    rw [buildRowCells_congr sizes h ft op eps, ih]

lemma formatSection_congr (sizes : ID → Int) {s1 s2 : fileTestResults}
    (h : ∀ ft op ep, lookupResult s1 ft op ep = lookupResult s2 ft op ep) (eps : List ID)
    (ops : List Operation) (ft : ID) :
    formatSection sizes s1 eps ops ft = formatSection sizes s2 eps ops ft := by
  simp only [formatSection]
  rw [buildRows_congr sizes h ft eps ops]

lemma formatLoop_congr (sizes : ID → Int) {s1 s2 : fileTestResults}
    (h : ∀ ft op ep, lookupResult s1 ft op ep = lookupResult s2 ft op ep) (eps : List ID)
    (ops : List Operation) :
    ∀ (fts : List ID) (acc : String),
      formatLoop sizes s1 eps ops fts acc = formatLoop sizes s2 eps ops fts acc := by
  intro fts
  induction fts with
  | nil => intro acc; rfl
  | cons ft fts ih =>
    intro acc
    simp only [formatLoop]
    rw [formatSection_congr sizes h eps ops ft]
    cases formatSection sizes s2 eps ops ft with
    | error e => rfl
    | ok sec => exact ih _

lemma formatResults_congr (sizes : ID → Int) {s1 s2 : fileTestResults}
    (hids : uniqueSortedIDs s1 = uniqueSortedIDs s2)
    (h : ∀ ft op ep, lookupResult s1 ft op ep = lookupResult s2 ft op ep) :
    formatResults sizes s1 = formatResults sizes s2 := by
  unfold formatResults
  rw [hids]
  exact formatLoop_congr sizes h _ _ _ _

/-- C5: file-test sections are rendered in strictly ascending identifier
order, endpoint columns in strictly ascending identifier order, rows in
the fixed enumeration order Upload, Download, Delete; and the rendered
report is independent of the submission order (for submission sequences
that, as the spec assumes, write each triple at most once). -/
theorem c5_rendering_order :
    (∀ results : fileTestResults,
      (uniqueSortedIDs results).1.Sorted (· < ·) ∧
      (uniqueSortedIDs results).2.1.Sorted (· < ·) ∧
      (uniqueSortedIDs results).2.2.Pairwise (fun a b => opNum a < opNum b)) ∧
    (∀ (sizes : ID → Int) (subs subs' : List Submission), subs.Perm subs' →
      (∀ a ∈ subs, ∀ b ∈ subs, subKey a = subKey b → a = b) →
      formatResults sizes (buildStore subs) = formatResults sizes (buildStore subs')) := by
  constructor
  · intro results
    refine ⟨?_, ?_, ?_⟩
    · exact sorted_lt_of_sorted_le_nodup (List.sorted_insertionSort _ _)
        (((List.perm_insertionSort _ _).nodup_iff).mpr (nodup_collectFileTestIDs results))
    · exact sorted_lt_of_sorted_le_nodup (List.sorted_insertionSort _ _)
        (((List.perm_insertionSort _ _).nodup_iff).mpr (nodup_collectEndpointIDs results))
    · have hs : (uniqueSortedIDs results).2.2.Pairwise fun a b => opNum a ≤ opNum b :=
        List.sorted_insertionSort _ _
      have hn : (uniqueSortedIDs results).2.2.Nodup :=
        ((List.perm_insertionSort _ _).nodup_iff).mpr (nodup_collectOperations results)
      exact (hs.and hn).imp fun h =>
        Nat.lt_of_le_of_ne h.1 fun he => h.2 (opNum_injective he)
  · intro sizes subs subs' hperm hu
    have hu' : ∀ a ∈ subs', ∀ b ∈ subs', subKey a = subKey b → a = b := fun a ha b hb =>
      hu a (hperm.mem_iff.mpr ha) b (hperm.mem_iff.mpr hb)
    have hftm : ∀ ft, ft ∈ collectFileTestIDs (buildStore subs) ↔
        ft ∈ collectFileTestIDs (buildStore subs') := by
      intro ft
      rw [mem_collectFileTestIDs, mem_collectFileTestIDs, buildStore_eq_foldl,
        buildStore_eq_foldl, ftPresent_foldl, ftPresent_foldl]
      constructor
      · rintro (⟨e, he, _⟩ | ⟨sub, hmem, hkey⟩)
        · exact absurd he (List.not_mem_nil _)
        · exact Or.inr ⟨sub, hperm.mem_iff.mp hmem, hkey⟩
      · rintro (⟨e, he, _⟩ | ⟨sub, hmem, hkey⟩)
        · exact absurd he (List.not_mem_nil _)
        · exact Or.inr ⟨sub, hperm.mem_iff.mpr hmem, hkey⟩
    have hepm : ∀ ep, ep ∈ collectEndpointIDs (buildStore subs) ↔
        ep ∈ collectEndpointIDs (buildStore subs') := by
      intro ep
      rw [mem_collectEndpointIDs, mem_collectEndpointIDs, buildStore_eq_foldl,
        buildStore_eq_foldl, epPresent_foldl, epPresent_foldl]
      constructor
      · rintro (⟨e, he, _⟩ | ⟨sub, hmem, hkey⟩)
        · exact absurd he (List.not_mem_nil _)
        · exact Or.inr ⟨sub, hperm.mem_iff.mp hmem, hkey⟩
      · rintro (⟨e, he, _⟩ | ⟨sub, hmem, hkey⟩)
        · exact absurd he (List.not_mem_nil _)
        · exact Or.inr ⟨sub, hperm.mem_iff.mpr hmem, hkey⟩
    have hopm : ∀ op, op ∈ collectOperations (buildStore subs) ↔
        op ∈ collectOperations (buildStore subs') := by
      intro op
      rw [mem_collectOperations, mem_collectOperations, buildStore_eq_foldl,
        buildStore_eq_foldl, opPresent_foldl, opPresent_foldl]
      constructor
      · rintro (⟨e, he, _⟩ | ⟨sub, hmem, hkey⟩)
        · exact absurd he (List.not_mem_nil _)
        · exact Or.inr ⟨sub, hperm.mem_iff.mp hmem, hkey⟩
      · rintro (⟨e, he, _⟩ | ⟨sub, hmem, hkey⟩)
        · exact absurd he (List.not_mem_nil _)
        · exact Or.inr ⟨sub, hperm.mem_iff.mpr hmem, hkey⟩
    have hids : uniqueSortedIDs (buildStore subs) = uniqueSortedIDs (buildStore subs') := by
      unfold uniqueSortedIDs
      rw [insertionSort_eq_of_mem_iff _ (nodup_collectFileTestIDs _)
          (nodup_collectFileTestIDs _) hftm,
        insertionSort_eq_of_mem_iff _ (nodup_collectEndpointIDs _)
          (nodup_collectEndpointIDs _) hepm,
        insertionSort_eq_of_mem_iff _ (nodup_collectOperations _)
          (nodup_collectOperations _) hopm]
    have hlook : ∀ ft op ep, lookupResult (buildStore subs) ft op ep =
        lookupResult (buildStore subs') ft op ep := by
      intro ft op ep
      by_cases hex : ∃ sub ∈ subs,
          sub.fileTestID = ft ∧ sub.operation = op ∧ sub.endpointID = ep
      · obtain ⟨sub, hmem, h1, h2, h3⟩ := hex
        subst h1; subst h2; subst h3
        rw [buildStore_eq_foldl, buildStore_eq_foldl,
          lookupResult_foldl_of_mem subs hu sub hmem,
          lookupResult_foldl_of_mem subs' hu' sub (hperm.mem_iff.mp hmem)]
      · have hex' : ¬∃ sub ∈ subs',
            sub.fileTestID = ft ∧ sub.operation = op ∧ sub.endpointID = ep := by
          rintro ⟨sub, hmem, hkey⟩
          exact hex ⟨sub, hperm.mem_iff.mpr hmem, hkey⟩
        rw [buildStore_eq_foldl, buildStore_eq_foldl,
          lookupResult_foldl_of_not_mem subs ft op ep (fun sub hs hk => hex ⟨sub, hs, hk⟩),
          lookupResult_foldl_of_not_mem subs' ft op ep (fun sub hs hk => hex' ⟨sub, hs, hk⟩)]
    exact formatResults_congr sizes hids hlook

/-- Witness for C5: two permuted submission sequences render identically. -/
theorem c5_rendering_order_witness :
    formatResults (fun _ => 5)
        (buildStore [⟨.Upload, "ft1", "end1", ⟨0, 5, true, "x"⟩⟩,
          ⟨.Download, "ft1", "end2", ⟨0, 7, true, "y"⟩⟩]) =
      formatResults (fun _ => 5)
        (buildStore [⟨.Download, "ft1", "end2", ⟨0, 7, true, "y"⟩⟩,
          ⟨.Upload, "ft1", "end1", ⟨0, 5, true, "x"⟩⟩]) :=
  c5_rendering_order.2 (fun _ => 5) _ _ (by decide) (by decide)

/-! Success and failure of `formatResults` section rendering. -/

lemma buildRowCells_ok (sizes : ID → Int) (results : fileTestResults) (ft : ID) (op : Operation)
    (h : sizes ft ≠ 0) :
    ∀ eps : List ID, ∃ cells, buildRowCells sizes results ft op eps = .ok cells ∧
      cells.length = eps.length := by
  intro eps
  induction eps with
  | nil => exact ⟨[], rfl, rfl⟩
  | cons ep eps ih =>
    obtain ⟨cells, hok, hlen⟩ := ih
    refine ⟨formatResultForRow op (sizes ft) (lookupResult results ft op ep) :: cells, ?_,
      by simp [hlen]⟩
    simp only [buildRowCells]
    rw [if_neg h, hok]
    rfl

lemma buildRowCells_err (sizes : ID → Int) (results : fileTestResults) (ft : ID) (op : Operation)
    (ep : ID) (eps : List ID) (h : sizes ft = 0) :
    buildRowCells sizes results ft op (ep :: eps) = .error ("Unknown fileTestSize for " ++ ft) := by
  simp only [buildRowCells]
  rw [if_pos h]

lemma buildRows_ok (sizes : ID → Int) (results : fileTestResults) (ft : ID) (eps : List ID)
    (h : sizes ft ≠ 0) :
    ∀ ops : List Operation, ∃ rows, buildRows sizes results ft eps ops = .ok rows ∧
      ∀ row ∈ rows, row.length = eps.length + 1 := by
  intro ops
  induction ops with
  | nil => exact ⟨[], rfl, by simp⟩
  | cons op ops ih =>
    obtain ⟨rows, hrowsOk, hlen⟩ := ih
    obtain ⟨cells, hcellsOk, hclen⟩ := buildRowCells_ok sizes results ft op h eps
    refine ⟨(Operation.str op :: cells) :: rows, ?_, ?_⟩
    · simp only [buildRows]
      rw [hcellsOk, hrowsOk]
      rfl
    · intro row hrow
      rcases List.mem_cons.mp hrow with rfl | hrow
      · simp [hclen]
      · exact hlen row hrow

lemma buildRows_err (sizes : ID → Int) (results : fileTestResults) (ft : ID) (ep : ID)
    (eps : List ID) (op : Operation) (ops : List Operation) (h : sizes ft = 0) :
    buildRows sizes results ft (ep :: eps) (op :: ops) =
      .error ("Unknown fileTestSize for " ++ ft) := by
  simp only [buildRows]
  rw [buildRowCells_err sizes results ft op ep eps h]
  rfl

lemma exceptOk_bind {ε α β : Type} (a : α) (f : α → Except ε β) :
    (Except.ok a : Except ε α) >>= f = f a := rfl

lemma exceptError_bind {ε α β : Type} (e : ε) (f : α → Except ε β) :
    (Except.error e : Except ε α) >>= f = Except.error e := rfl

lemma formatSection_ok (sizes : ID → Int) (results : fileTestResults) (eps : List ID)
    (ops : List Operation) (ft : ID) (h : sizes ft ≠ 0) :
    ∃ sec, formatSection sizes results eps ops ft = .ok sec := by
  obtain ⟨rows, hrowsOk, hlen⟩ := buildRows_ok sizes results ft eps h ops
  have hall : ∀ r ∈ ("Operation" :: eps) :: rows, r.length = eps.length + 1 := by
    intro r hr
    rcases List.mem_cons.mp hr with rfl | hr
    · simp
    · exact hlen r hr
  have htab := makeTable_eq_specTable (("Operation" :: eps) :: rows) (eps.length + 1) "-"
    (Nat.succ_pos _) hall
  simp only [formatSection]
  rw [hrowsOk]
  simp only [exceptOk_bind]
  rw [htab]
  simp only [exceptOk_bind]
  exact ⟨_, rfl⟩

lemma formatSection_err (sizes : ID → Int) (results : fileTestResults) (eps : List ID)
    (ops : List Operation) (ft : ID) (h : sizes ft = 0) (heps : eps ≠ []) (hops : ops ≠ []) :
    formatSection sizes results eps ops ft = .error ("Unknown fileTestSize for " ++ ft) := by
  cases eps with
  | nil => exact absurd rfl heps
  | cons ep eps =>
    cases ops with
    | nil => exact absurd rfl hops
    | cons op ops =>
      simp only [formatSection]
      rw [buildRows_err sizes results ft ep eps op ops h]
      rfl

lemma formatLoop_ok (sizes : ID → Int) (results : fileTestResults) (eps : List ID)
    (ops : List Operation) :
    ∀ fts : List ID, (∀ ft ∈ fts, sizes ft ≠ 0) →
      ∀ acc, ∃ out, formatLoop sizes results eps ops fts acc = .ok out := by
  intro fts
  induction fts with
  | nil => intro _ acc; exact ⟨acc, rfl⟩
  | cons ft fts ih =>
    intro hall acc
    obtain ⟨sec, hsec⟩ := formatSection_ok sizes results eps ops ft
      (hall ft (List.mem_cons_self _ _))
    simp only [formatLoop]
    rw [hsec]
    exact ih (fun x hx => hall x (List.mem_cons_of_mem _ hx)) _

lemma formatLoop_first_err (sizes : ID → Int) (results : fileTestResults) (eps : List ID)
    (ops : List Operation) (heps : eps ≠ []) (hops : ops ≠ []) :
    ∀ fts : List ID, (∃ ft ∈ fts, sizes ft = 0) →
      ∃ ft₁ ∈ fts, sizes ft₁ = 0 ∧ ∀ acc, formatLoop sizes results eps ops fts acc =
        .error ("Unknown fileTestSize for " ++ ft₁) := by
  intro fts
  induction fts with
  | nil => rintro ⟨ft, hmem, _⟩; exact absurd hmem (List.not_mem_nil _)
  | cons ft fts ih =>
    intro hex
    by_cases hz : sizes ft = 0
    · refine ⟨ft, List.mem_cons_self _ _, hz, fun acc => ?_⟩
      simp only [formatLoop]
      rw [formatSection_err sizes results eps ops ft hz heps hops]
      rfl
    · have hex' : ∃ ft' ∈ fts, sizes ft' = 0 := by
        rcases hex with ⟨ft', hmem, hz'⟩
        rcases List.mem_cons.mp hmem with rfl | hmem'
        · exact absurd hz' hz
        · exact ⟨ft', hmem', hz'⟩
      obtain ⟨ft₁, hmem₁, hz₁, herr⟩ := ih hex'
      refine ⟨ft₁, List.mem_cons_of_mem _ hmem₁, hz₁, fun acc => ?_⟩
      obtain ⟨sec, hsec⟩ := formatSection_ok sizes results eps ops ft hz
      simp only [formatLoop]
      rw [hsec]
      exact herr _

/-- C3: as soon as the store holds at least one Result for a file test
whose configured size is zero (or absent, which the Go map reads as zero),
`formatResults` aborts with a configuration error naming a zero-size
file test that has Results, and produces no report string.  The named
identifier is the first zero-size file test in section order. -/
theorem c3_unknown_size_aborts (sizes : ID → Int) (subs : List Submission) (sub₀ : Submission)
    (hmem : sub₀ ∈ subs) (hsize : sizes sub₀.fileTestID = 0) :
    ∃ ft₁, (∃ sub₁ ∈ subs, sub₁.fileTestID = ft₁) ∧ sizes ft₁ = 0 ∧
      formatResults sizes (buildStore subs) = .error ("Unknown fileTestSize for " ++ ft₁) := by
  have hft₀ : sub₀.fileTestID ∈ (uniqueSortedIDs (buildStore subs)).1 := by
    show sub₀.fileTestID ∈ List.insertionSort _ (collectFileTestIDs (buildStore subs))
    rw [List.mem_insertionSort, mem_collectFileTestIDs, buildStore_eq_foldl, ftPresent_foldl]
    exact Or.inr ⟨sub₀, hmem, rfl⟩
  have hops_ne : (uniqueSortedIDs (buildStore subs)).2.2 ≠ [] := by
    refine List.ne_nil_of_mem (a := sub₀.operation) ?_
    show sub₀.operation ∈ List.insertionSort _ (collectOperations (buildStore subs))
    rw [List.mem_insertionSort, mem_collectOperations, buildStore_eq_foldl, opPresent_foldl]
    exact Or.inr ⟨sub₀, hmem, rfl⟩
  have heps_ne : (uniqueSortedIDs (buildStore subs)).2.1 ≠ [] := by
    refine List.ne_nil_of_mem (a := sub₀.endpointID) ?_
    show sub₀.endpointID ∈ List.insertionSort _ (collectEndpointIDs (buildStore subs))
    rw [List.mem_insertionSort, mem_collectEndpointIDs, buildStore_eq_foldl, epPresent_foldl]
    exact Or.inr ⟨sub₀, hmem, rfl⟩
  obtain ⟨ft₁, hmem₁, hz₁, herr⟩ := formatLoop_first_err sizes (buildStore subs)
    (uniqueSortedIDs (buildStore subs)).2.1 (uniqueSortedIDs (buildStore subs)).2.2
    heps_ne hops_ne (uniqueSortedIDs (buildStore subs)).1 ⟨sub₀.fileTestID, hft₀, hsize⟩
  refine ⟨ft₁, ?_, hz₁, herr ""⟩
  have hft₁ : ft₁ ∈ List.insertionSort (. ≤ .) (collectFileTestIDs (buildStore subs)) := hmem₁
  rw [List.mem_insertionSort, mem_collectFileTestIDs, buildStore_eq_foldl,
    ftPresent_foldl] at hft₁
  rcases hft₁ with ⟨e, he, _⟩ | ⟨sub₁, hmem₁', hkey⟩
  · exact absurd he (List.not_mem_nil _)
  · exact ⟨sub₁, hmem₁', hkey⟩

/-- Witness for C3 at a one-submission store with an unconfigured size. -/
theorem c3_unknown_size_aborts_witness :
    ∃ ft₁, (∃ sub₁ ∈ [(⟨.Upload, "ft1", "end1", ⟨0, 5, true, ""⟩⟩ : Submission)],
        sub₁.fileTestID = ft₁) ∧ (fun _ : ID => (0 : Int)) ft₁ = 0 ∧
      formatResults (fun _ => 0)
          (buildStore [⟨.Upload, "ft1", "end1", ⟨0, 5, true, ""⟩⟩]) =
        .error ("Unknown fileTestSize for " ++ ft₁) :=
  c3_unknown_size_aborts (fun _ => 0) _ _ (List.mem_cons_self _ _) rfl

set_option maxRecDepth 4000 in
/-- C2 counterexample: a file test (`ft2`) with a configured size but zero
submissions produces no section at all — the generated report does not even
mention `ft2`, instead of containing a fully `-`-filled table for it. -/
theorem c2_counterexample :
    ∃ s, formatResults
        (fun ft => if ft = "ft1" then 10000000 else if ft = "ft2" then 20000000 else 0)
        (buildStore [⟨.Upload, "ft1", "end1", ⟨0, 5000000000, true, "boom"⟩⟩]) = .ok s ∧
      ¬ List.IsInfix "ft2".data s.data := by
  refine ⟨"*********\nFile: ft1\n*********\n\nOperation     end1\n------------------\nUpload        ERR\n\n",
    rfl, by decide⟩

/-- C2 (amended): a file test with zero submissions in the store gets no
section in the report (its identifier is not among the rendered file-test
sections), and report generation succeeds without error provided every
file test that does appear in the store has a nonzero configured size —
the absent file test's size is never consulted. -/
theorem c2_zero_submissions_no_section (sizes : ID → Int) (subs : List Submission) (ft : ID)
    (habsent : ∀ sub ∈ subs, sub.fileTestID ≠ ft)
    (hconf : ∀ sub ∈ subs, sizes sub.fileTestID ≠ 0) :
    ft ∉ (uniqueSortedIDs (buildStore subs)).1 ∧
      ∃ s, formatResults sizes (buildStore subs) = .ok s := by
  constructor
  · intro hmem
    have hft : ft ∈ List.insertionSort (. ≤ .) (collectFileTestIDs (buildStore subs)) := hmem
    rw [List.mem_insertionSort, mem_collectFileTestIDs, buildStore_eq_foldl,
      ftPresent_foldl] at hft
    rcases hft with ⟨e, he, _⟩ | ⟨sub, hsub, hkey⟩
    · exact absurd he (List.not_mem_nil _)
    · exact habsent sub hsub hkey
  · have hall : ∀ ft' ∈ (uniqueSortedIDs (buildStore subs)).1, sizes ft' ≠ 0 := by
      intro ft' hft'
      have h2 : ft' ∈ List.insertionSort (. ≤ .) (collectFileTestIDs (buildStore subs)) := hft'
      rw [List.mem_insertionSort, mem_collectFileTestIDs, buildStore_eq_foldl,
        ftPresent_foldl] at h2
      rcases h2 with ⟨e, he, _⟩ | ⟨sub, hsub, hkey⟩
      · exact absurd he (List.not_mem_nil _)
      · exact hkey ▸ hconf sub hsub
    obtain ⟨out, hout⟩ := formatLoop_ok sizes (buildStore subs)
      (uniqueSortedIDs (buildStore subs)).2.1 (uniqueSortedIDs (buildStore subs)).2.2
      (uniqueSortedIDs (buildStore subs)).1 hall ""
    exact ⟨out, hout⟩

/-- Witness for C2 (amended) at the counterexample's store and `ft2`. -/
theorem c2_zero_submissions_no_section_witness :
    ("ft2" : ID) ∉ (uniqueSortedIDs
        (buildStore [⟨.Upload, "ft1", "end1", ⟨0, 5000000000, true, "boom"⟩⟩])).1 ∧
      ∃ s, formatResults
          (fun ft => if ft = "ft1" then 10000000 else if ft = "ft2" then 20000000 else 0)
          (buildStore [⟨.Upload, "ft1", "end1", ⟨0, 5000000000, true, "boom"⟩⟩]) = .ok s :=
  c2_zero_submissions_no_section _ _ "ft2" (by decide) (by decide)

end Perftester
